import Mathlib

/-!
Verification development for the avito-tender service (Go).

This file shallowly embeds the parts of the repository that the analysed
properties are about:

* the data model (`internal/models`): tenders, bids, decisions, patches,
  out-DTOs; the Go string-typed enums (`TenderStatus`, `BidStatus`,
  `AuthorType`, `DecisionType`, `ServiceType`) are kept as `String`,
  exactly as in the source, where they are `type X string` with string
  literals `"Created"`, `"Approved"`, `"User"`, ... ;
* the postgres storage layer (`internal/storage/postgres`): each method is
  translated from its SQL statement over an explicit in-memory `Store`
  (lists standing for the tables, an id counter standing for
  `uuid_generate_v4()` defaults, a clock standing for `now()` defaults);
* the user (permission-gate) service, the rollback service, the tender
  service and the bid service (`internal/service/...`).

Conventions of the embedding:

* UUIDs are modelled as `Nat`, timestamps as `Nat`, Go `int32`/`int64`
  version and size counters as `Int` (no claim touches integer overflow).
* Every service operation has the Go shape
  `Begin; business logic; Commit` with a deferred `Rollback`.  It is
  modelled as a function `Store → args → Except Err α × Store` that
  returns the mutated store only on paths that reach `Commit`; every
  error return and every early `return` that skips `Commit` yields the
  original store, because the deferred transaction rollback discards the
  uncommitted writes.  Infrastructure failures (connection errors, pgx
  errors) are not modelled: inside the model every storage call is total
  and returns only the typed not-found outcomes its source maps.
* The storage-level sentinel errors (`storage.ErrBidNotFound`, ...) and
  the service-level ones (`service.ErrBidNotFound`, ...) are identified:
  each service maps the former to the latter unchanged in kind, so one
  constructor per failure kind suffices.
-/

/-- A row of the `employee` table: `id UUID`, `username VARCHAR`. -/
structure Employee where
  id : Nat
  username : String
deriving Repr, DecidableEq

/-- `models.Tender` (with the embedded `TenderBase` flattened):
fields `OrgId, Name, Desc, ServiceType` are the content ("base") fields,
plus `Id, Status, Version, CreatedAt`. -/
structure Tender where
  orgId : Nat
  name : String
  desc : String
  serviceType : String
  id : Nat
  status : String
  version : Int
  createdAt : Nat
deriving Repr, DecidableEq

/-- `models.Bid` (with the embedded `BidBase` flattened):
content fields `TenderId, Name, Desc, AuthorType, AuthorId`,
plus `Id, Version, Status, CreatedAt`. -/
structure Bid where
  tenderId : Nat
  name : String
  desc : String
  authorType : String
  authorId : Nat
  id : Nat
  version : Int
  status : String
  createdAt : Nat
deriving Repr, DecidableEq

/-- `models.Decision`: one vote of `UserId` on `BidId`. -/
structure Decision where
  userId : Nat
  bidId : Nat
  decision : String
deriving Repr, DecidableEq

/-- `models.TenderOut` — the outward DTO; same fields as `models.Tender`. -/
structure TenderOut where
  orgId : Nat
  name : String
  desc : String
  serviceType : String
  id : Nat
  status : String
  version : Int
  createdAt : Nat
deriving Repr, DecidableEq

/-- `models.BidOut` — the outward DTO; same fields as `models.Bid`. -/
structure BidOut where
  tenderId : Nat
  name : String
  desc : String
  authorType : String
  authorId : Nat
  id : Nat
  version : Int
  status : String
  createdAt : Nat
deriving Repr, DecidableEq

/-- `(t *Tender) ToOut()` — field-for-field copy into the DTO. -/
def Tender.ToOut (t : Tender) : TenderOut :=
  { orgId := t.orgId, name := t.name, desc := t.desc, serviceType := t.serviceType,
    id := t.id, status := t.status, version := t.version, createdAt := t.createdAt }

/-- `(b *Bid) ToOut()` — field-for-field copy into the DTO. -/
def Bid.ToOut (b : Bid) : BidOut :=
  { tenderId := b.tenderId, name := b.name, desc := b.desc, authorType := b.authorType,
    authorId := b.authorId, id := b.id, version := b.version, status := b.status,
    createdAt := b.createdAt }

/-- `models.TenderPatch`: the three nullable content fields. -/
structure TenderPatch where
  name : Option String
  desc : Option String
  serviceType : Option String
deriving Repr, DecidableEq

/-- `models.BidPatch`: the two nullable content fields. -/
structure BidPatch where
  name : Option String
  desc : Option String
deriving Repr, DecidableEq

/-- `(t *Tender) Patch(patch)`: each non-nil patch field overwrites the
corresponding content field; nothing else is touched. -/
def Tender.Patch (t : Tender) (p : TenderPatch) : Tender :=
  let t := match p.name with
    | some n => { t with name := n }
    | none => t
  let t := match p.desc with
    | some d => { t with desc := d }
    | none => t
  match p.serviceType with
  | some st => { t with serviceType := st }
  | none => t

/-- `(b *Bid) Patch(patch)`. -/
def Bid.Patch (b : Bid) (p : BidPatch) : Bid :=
  let b := match p.name with
    | some n => { b with name := n }
    | none => b
  match p.desc with
  | some d => { b with desc := d }
  | none => b

/-- `models.BidNew` (with `BidBase` flattened). -/
structure BidNew where
  tenderId : Nat
  name : String
  desc : String
  authorType : String
  authorId : Nat
deriving Repr, DecidableEq

/-- `(b *BidNew) ToBid()`: version 1, status `Created`; id and createdAt
are the Go zero values, later overwritten by the insert. -/
def BidNew.ToBid (b : BidNew) : Bid :=
  { tenderId := b.tenderId, name := b.name, desc := b.desc,
    authorType := b.authorType, authorId := b.authorId,
    id := 0, version := 1, status := "Created", createdAt := 0 }

/-- The typed failure outcomes of `internal/service` / `internal/storage`
(the storage sentinels are identified with the service ones they map to).
`infra` stands for any wrapped infrastructure error; inside the model it
arises only on code paths the services never reach (e.g. `UserId` on a
username that was not validated first). -/
inductive Err where
  | userNotFound
  | organizationNotFound
  | tenderNotFound
  | bidNotFound
  | versionNotFound
  | authorNotFound
  | notEnoughPrivileges
  | infra
deriving Repr, DecidableEq

/-- The database state: one field per table of the migrations, plus the
id counter modelling `uuid_generate_v4()` defaults and the clock
modelling `now()` defaults for `created_at`.

`orgResponsible` holds `(organization_id, user_id)` pairs of the
`organization_responsible` table; `rollbackTenders` / `rollbackBids` are
the history tables `rollback_tender` / `rollback_bid`. -/
structure Store where
  employees : List Employee
  orgs : List Nat
  orgResponsible : List (Nat × Nat)
  tenders : List Tender
  bids : List Bid
  rollbackTenders : List Tender
  rollbackBids : List Bid
  decisions : List Decision
  nextId : Nat
  now : Nat
deriving Repr, DecidableEq

/-- Well-formedness used only where freshness of generated ids matters:
every entity id already present is below the id counter, so a freshly
assigned id collides with nothing (this models that
`uuid_generate_v4()` does not collide with stored UUIDs). -/
def Store.wfb (s : Store) : Bool :=
  s.tenders.all (fun t => t.id < s.nextId) && s.bids.all (fun b => b.id < s.nextId)

/-! ## Storage layer (`internal/storage/postgres`) -/

/-- `Storage.VerifyUser`: `SELECT EXISTS(SELECT 1 FROM employee WHERE username=$1)`. -/
def Storage.VerifyUser (s : Store) (username : String) : Bool :=
  s.employees.any (fun e => e.username == username)

/-- `Storage.VerifyUserId`: `SELECT EXISTS(SELECT 1 FROM employee WHERE id=$1)`. -/
def Storage.VerifyUserId (s : Store) (userId : Nat) : Bool :=
  s.employees.any (fun e => e.id == userId)

/-- `Storage.VerifyOrgId`: `SELECT EXISTS(SELECT 1 FROM organization WHERE id=$1)`. -/
def Storage.VerifyOrgId (s : Store) (orgId : Nat) : Bool :=
  s.orgs.contains orgId

/-- `Storage.UserId`: `SELECT id from employee where username=$1` through
`QueryRow.Scan`.  A missing username makes `Scan` fail with `ErrNoRows`,
which this method does not map to a typed error — it is wrapped as an
infrastructure error. -/
def Storage.UserId (s : Store) (username : String) : Except Err Nat :=
  match s.employees.find? (fun e => e.username == username) with
  | some e => .ok e.id
  | none => .error .infra

/-- `Storage.VerifyUserPermission`: membership of
`(orgId, (SELECT id from employee WHERE username=$2))` in
`organization_responsible`.  If the username resolves to no employee the
scalar subquery is NULL and the EXISTS is false. -/
def Storage.VerifyUserPermission (s : Store) (username : String) (orgId : Nat) : Bool :=
  match s.employees.find? (fun e => e.username == username) with
  | some e => s.orgResponsible.contains (orgId, e.id)
  | none => false

/-- The row count of the `OrgSize` join:
`employee e JOIN organization_responsible r ON e.id = r.user_id
 JOIN organization o ON o.id = r.organization_id WHERE o.id = $1`
(the `organization` table has `id` as primary key, so an existing org id
matches exactly one `o` row). -/
def orgRepCount (s : Store) (orgId : Nat) : Nat :=
  if s.orgs.contains orgId then
    (s.orgResponsible.map (fun r =>
      if r.1 = orgId then (s.employees.filter (fun e => e.id == r.2)).length else 0)).sum
  else 0

/-- `Storage.OrgSize`: `SELECT COUNT(*) FROM ... WHERE o.id = $1` through
`QueryRow.Scan`.  A `COUNT(*)` aggregate without GROUP BY produces exactly
one result row, so the query's row list is the singleton of the count; the
source's `ErrNoRows -> ErrOrgNotFound` branch corresponds to the empty
case of that list and is kept to mirror the source's structure. -/
def Storage.OrgSize (s : Store) (orgId : Nat) : Except Err Int :=
  let queryRows : List Int := [(orgRepCount s orgId : Int)]
  match queryRows with
  | [] => .error .organizationNotFound
  | size :: _ => .ok size

/-- `Storage.InsertTender`:
`INSERT INTO tender(organization_id, name, description, type, status, version)
 VALUES(...) RETURNING id, created_at` — the store assigns the id
(`uuid_generate_v4()` default) and `created_at` (`now()` default) and the
returned record is the argument with those two fields overwritten. -/
def Storage.InsertTender (s : Store) (t : Tender) : Tender × Store :=
  let t' := { t with id := s.nextId, createdAt := s.now }
  (t', { s with tenders := s.tenders ++ [t'], nextId := s.nextId + 1 })

/-- `Storage.Tender` (named `TenderById` here because the member name
`Tender` would shadow the record type inside its own signature):
`SELECT ... FROM tender WHERE id=$1`, `ErrNoRows -> ErrTenderNotFound`. -/
def Storage.TenderById (s : Store) (id : Nat) : Except Err Tender :=
  match s.tenders.find? (fun t => t.id == id) with
  | some t => .ok t
  | none => .error .tenderNotFound

/-- `Storage.UpdateTender`:
`UPDATE tender SET organization_id,name,description,type,status,version WHERE id`
— `created_at` is not in the SET list.  `Exec` reports no `ErrNoRows`, so
an id matching no row simply updates nothing. -/
def Storage.UpdateTender (s : Store) (t : Tender) : Store :=
  { s with tenders := s.tenders.map (fun r =>
      if r.id = t.id then
        { r with orgId := t.orgId, name := t.name, desc := t.desc,
                 serviceType := t.serviceType, status := t.status, version := t.version }
      else r) }

/-- `Storage.TenderSetStatus`:
`UPDATE tender SET status=$2 WHERE id=$1 RETURNING ...`;
`ErrNoRows -> ErrTenderNotFound` when no row has that id. -/
def Storage.TenderSetStatus (s : Store) (tenderId : Nat) (status : String) :
    Except Err Tender × Store :=
  match s.tenders.find? (fun t => t.id == tenderId) with
  | none => (.error .tenderNotFound, s)
  | some t =>
    (.ok { t with status := status },
     { s with tenders := s.tenders.map (fun r =>
         if r.id = tenderId then { r with status := status } else r) })

/-- `Storage.InsertBid`:
`INSERT INTO bid(tender_id, name, description, status, author_type, author_id, version)
 VALUES(...) RETURNING id, created_at` — same id/createdAt assignment as
`InsertTender`. -/
def Storage.InsertBid (s : Store) (b : Bid) : Bid × Store :=
  let b' := { b with id := s.nextId, createdAt := s.now }
  (b', { s with bids := s.bids ++ [b'], nextId := s.nextId + 1 })

/-- `Storage.Bid` (named `BidById`, see `Storage.TenderById`):
`SELECT ... FROM bid WHERE id=$1`, `ErrNoRows -> ErrBidNotFound`. -/
def Storage.BidById (s : Store) (bidId : Nat) : Except Err Bid :=
  match s.bids.find? (fun b => b.id == bidId) with
  | some b => .ok b
  | none => .error .bidNotFound

/-- `Storage.UpdateBid`:
`UPDATE bid SET name,description,status,author_type,author_id,version WHERE id`
— neither `tender_id` nor `created_at` is in the SET list. -/
def Storage.UpdateBid (s : Store) (b : Bid) : Store :=
  { s with bids := s.bids.map (fun r =>
      if r.id = b.id then
        { r with name := b.name, desc := b.desc, status := b.status,
                 authorType := b.authorType, authorId := b.authorId, version := b.version }
      else r) }

/-- `Storage.BidSetStatus`:
`UPDATE bid SET status=$2 WHERE id=$1 RETURNING ...`;
`ErrNoRows -> ErrBidNotFound` when no row has that id. -/
def Storage.BidSetStatus (s : Store) (bidId : Nat) (status : String) :
    Except Err Bid × Store :=
  match s.bids.find? (fun b => b.id == bidId) with
  | none => (.error .bidNotFound, s)
  | some b =>
    (.ok { b with status := status },
     { s with bids := s.bids.map (fun r =>
         if r.id = bidId then { r with status := status } else r) })

/-- `Storage.SaveTender`: plain
`INSERT INTO rollback_tender(id, organization_id, ..., version, created_at)`
of the full record.  The table's `(id, version)` primary key is not
modelled (the services only ever archive a version once per entity). -/
def Storage.SaveTender (s : Store) (t : Tender) : Store :=
  { s with rollbackTenders := s.rollbackTenders ++ [t] }

/-- `Storage.SaveBid`: plain `INSERT INTO rollback_bid(...)`. -/
def Storage.SaveBid (s : Store) (b : Bid) : Store :=
  { s with rollbackBids := s.rollbackBids ++ [b] }

/-- `Storage.RecoverTender`:
`SELECT ... FROM rollback_tender WHERE id=$1 AND version=$2`;
`ErrNoRows -> ErrVersionNotFound`. -/
def Storage.RecoverTender (s : Store) (tenderId : Nat) (version : Int) :
    Except Err Tender :=
  match s.rollbackTenders.find? (fun t => t.id == tenderId && t.version == version) with
  | some t => .ok t
  | none => .error .versionNotFound

/-- `Storage.RecoverBid`:
`SELECT ... FROM rollback_bid WHERE id=$1 AND version=$2`;
`ErrNoRows -> ErrVersionNotFound`. -/
def Storage.RecoverBid (s : Store) (bidId : Nat) (version : Int) :
    Except Err Bid :=
  match s.rollbackBids.find? (fun b => b.id == bidId && b.version == version) with
  | some b => .ok b
  | none => .error .versionNotFound

/-- `Storage.InsertDecision`: the `DO $$ ... $$` block — insert the row if
no `(user_id, bid_id)` row exists, else overwrite its decision value
(upsert). -/
def Storage.InsertDecision (s : Store) (d : Decision) : Store :=
  if s.decisions.any (fun x => x.userId == d.userId && x.bidId == d.bidId) then
    { s with decisions := s.decisions.map (fun x =>
        if x.userId = d.userId ∧ x.bidId = d.bidId then { x with decision := d.decision } else x) }
  else
    { s with decisions := s.decisions ++ [d] }

/-- `Storage.Decisions`:
`SELECT user_id, decision FROM decision WHERE bid_id=$1` in table order. -/
def Storage.Decisions (s : Store) (bidId : Nat) : List Decision :=
  s.decisions.filter (fun d => d.bidId == bidId)

/-! ## User service — the permission gate (`internal/service/user`) -/

/-- `User.Validate`: `VerifyUser`; `false -> ErrUserNotFound`. -/
def User.Validate (s : Store) (username : String) : Except Err Unit :=
  if Storage.VerifyUser s username then .ok () else .error .userNotFound

/-- `User.ValidateUserId`: `VerifyUserId`; `false -> ErrUserNotFound`. -/
def User.ValidateUserId (s : Store) (userId : Nat) : Except Err Unit :=
  if Storage.VerifyUserId s userId then .ok () else .error .userNotFound

/-- `User.ValidateOrgId`: `VerifyOrgId`; `false -> ErrOrganizationNotFound`. -/
def User.ValidateOrgId (s : Store) (orgId : Nat) : Except Err Unit :=
  if Storage.VerifyOrgId s orgId then .ok () else .error .organizationNotFound

/-- `User.UserId`: passes `Storage.UserId` through (errors only wrapped). -/
def User.UserId (s : Store) (username : String) : Except Err Nat :=
  Storage.UserId s username

/-- `User.Permission`: `VerifyUserPermission`; `false -> ErrNotEnoughPrivileges`. -/
def User.Permission (s : Store) (username : String) (orgId : Nat) : Except Err Unit :=
  if Storage.VerifyUserPermission s username orgId then .ok ()
  else .error .notEnoughPrivileges

/-- `User.OrgSize`: maps the storage `ErrOrgNotFound` to the service
`ErrOrganizationNotFound` and passes the size through. -/
def User.OrgSize (s : Store) (orgId : Nat) : Except Err Int :=
  match Storage.OrgSize s orgId with
  | .error .organizationNotFound => .error .organizationNotFound
  | .error e => .error e
  | .ok size => .ok size

/-! ## Rollback service (`internal/service/rollback`)

The rollback service runs inside the caller's transaction (it has no
Begin/Commit of its own), so its functions thread the working store even
on error — the caller's deferred rollback is what discards it. -/

/-- `Rollback.SaveTender`: archive one tender snapshot. -/
def Rollback.SaveTender (s : Store) (t : Tender) : Except Err Unit × Store :=
  (.ok (), Storage.SaveTender s t)

/-- `Rollback.SaveBid`: archive one bid snapshot. -/
def Rollback.SaveBid (s : Store) (b : Bid) : Except Err Unit × Store :=
  (.ok (), Storage.SaveBid s b)

/-- `Rollback.SwapTender`: archive the outdated (current) tender, then
fetch the snapshot at the requested version; the storage
`ErrVersionNotFound` is mapped to the service `ErrVersionNotFound`. -/
def Rollback.SwapTender (s : Store) (tenderId : Nat) (version : Int)
    (outdatedTender : Tender) : Except Err Tender × Store :=
  let s1 := Storage.SaveTender s outdatedTender
  match Storage.RecoverTender s1 tenderId version with
  | .error .versionNotFound => (.error .versionNotFound, s1)
  | .error e => (.error e, s1)
  | .ok oldTender => (.ok oldTender, s1)

/-- `Rollback.SwapBid`: same shape for bids. -/
def Rollback.SwapBid (s : Store) (bidId : Nat) (version : Int)
    (outdatedBid : Bid) : Except Err Bid × Store :=
  let s1 := Storage.SaveBid s outdatedBid
  match Storage.RecoverBid s1 bidId version with
  | .error .versionNotFound => (.error .versionNotFound, s1)
  | .error e => (.error e, s1)
  | .ok oldBid => (.ok oldBid, s1)

/-! ## Tender service (`internal/service/tender`) -/

/-- `Tender.Tender` (named `fetch` here because the member name `Tender`
would shadow the record type in its own signature): the service read used
by the bid service's `TenderService` collaborator; maps the storage
not-found to the service not-found.  Its internal Begin/Commit join the
ambient transaction and are not modelled. -/
def Tender.fetch (s : Store) (tenderId : Nat) : Except Err Tender :=
  Storage.TenderById s tenderId

/-- `Tender.SetStatus`: validate user, get tender, check permission
against the tender's organization, `TenderSetStatus`, commit. -/
def Tender.SetStatus (s0 : Store) (username : String) (tenderId : Nat)
    (status : String) : Except Err TenderOut × Store :=
  match User.Validate s0 username with
  | .error e => (.error e, s0)
  | .ok _ =>
    match Storage.TenderById s0 tenderId with
    | .error e => (.error e, s0)
    | .ok tender =>
      match User.Permission s0 username tender.orgId with
      | .error e => (.error e, s0)
      | .ok _ =>
        match Storage.TenderSetStatus s0 tenderId status with
        | (.error e, _) => (.error e, s0)
        | (.ok t, s1) => (.ok t.ToOut, s1)

/-- `Tender.Edit`: validate user, get tender, check permission, apply the
patch to a copy, bump its version, `UpdateTender`, archive the pre-edit
record via `Rollback.SaveTender`, commit. -/
def Tender.Edit (s0 : Store) (username : String) (tenderId : Nat)
    (patch : TenderPatch) : Except Err TenderOut × Store :=
  match User.Validate s0 username with
  | .error e => (.error e, s0)
  | .ok _ =>
    match Storage.TenderById s0 tenderId with
    | .error e => (.error e, s0)
    | .ok tender =>
      match User.Permission s0 username tender.orgId with
      | .error e => (.error e, s0)
      | .ok _ =>
        let newTender0 := tender.Patch patch
        let newTender := { newTender0 with version := newTender0.version + 1 }
        let s1 := Storage.UpdateTender s0 newTender
        match Rollback.SaveTender s1 tender with
        | (.error e, _) => (.error e, s0)
        | (.ok _, s2) => (.ok newTender.ToOut, s2)

/-- `Tender.Rollback`: validate user, get the current tender, check
permission, `Rollback.SwapTender` (archive current, fetch snapshot), then
force the snapshot's version to `current.version + 1` and its status to
the current status, and re-insert it as a new row via `InsertTender`;
commit.  `ErrVersionNotFound` from the swap is returned as such. -/
def Tender.Rollback (s0 : Store) (username : String) (id : Nat)
    (version : Int) : Except Err TenderOut × Store :=
  match User.Validate s0 username with
  | .error e => (.error e, s0)
  | .ok _ =>
    match Storage.TenderById s0 id with
    | .error e => (.error e, s0)
    | .ok tender =>
      match User.Permission s0 username tender.orgId with
      | .error e => (.error e, s0)
      | .ok _ =>
        match Rollback.SwapTender s0 id version tender with
        | (.error .versionNotFound, _) => (.error .versionNotFound, s0)
        | (.error e, _) => (.error e, s0)
        | (.ok recoveredTender, s1) =>
          let recovered := { recoveredTender with
            version := tender.version + 1, status := tender.status }
          let (newTender, s2) := Storage.InsertTender s1 recovered
          (.ok newTender.ToOut, s2)

/-! ## Bid service (`internal/service/bid`) -/

/-- `QUORUM_SIZE` — the fixed quorum cap. -/
def QUORUM_SIZE : Int := 3

/-- The `loop:` scan of `Bid.SubmitDecision` (the labelled `for` over the
fetched decisions): `Approved` increments the approve counter, the first
`Rejected` sets the summary and breaks out, anything else is skipped.
Returns the summary and counter at loop exit. -/
def decisionScan : List Decision → Int → String × Int
  | [], c => ("null", c)
  | d :: rest, c =>
    if d.decision = "Approved" then decisionScan rest (c + 1)
    else if d.decision = "Rejected" then ("Rejected", c)
    else decisionScan rest c

/-- The summary computation of `Bid.SubmitDecision` (scan plus the final
`if summary != Rejected && approve_counter >= required_approves` step). -/
def decisionSummary (decisions : List Decision) (requiredApproves : Int) : String :=
  let scanned := decisionScan decisions 0
  if scanned.1 ≠ "Rejected" ∧ requiredApproves ≤ scanned.2 then "Approved" else scanned.1

/-- The author-type authorization block that `Bid.Status`, `Bid.SetStatus`,
`Bid.Edit` and `Bid.Rollback` each repeat verbatim: a `switch` on the
bid's author type — for `User`, resolve the requester's id and compare it
with the author id; for `Organization`, run the permission gate against
the author id; any other author type falls through the switch with no
check. -/
def Bid.checkAuthor (s : Store) (username : String) (bid : Bid) : Except Err Unit :=
  if bid.authorType = "User" then
    match User.UserId s username with
    | .error e => .error e
    | .ok userId =>
      if userId ≠ bid.authorId then .error .notEnoughPrivileges else .ok ()
  else if bid.authorType = "Organization" then
    match User.Permission s username bid.authorId with
    | .error .notEnoughPrivileges => .error .notEnoughPrivileges
    | .error e => .error e
    | .ok _ => .ok ()
  else .ok ()

/-- `Bid.New`: build the bid from `BidNew` (version 1, status Created),
validate the author — `ValidateUserId` for author type `User`,
`ValidateOrgId` for `Organization`, and nothing for any other value (the
switch has no default branch) — then `InsertBid` and commit. -/
def Bid.New (s0 : Store) (bidNew : BidNew) : Except Err BidOut × Store :=
  let bid := bidNew.ToBid
  let validation : Except Err Unit :=
    if bidNew.authorType = "User" then User.ValidateUserId s0 bidNew.authorId
    else if bidNew.authorType = "Organization" then User.ValidateOrgId s0 bidNew.authorId
    else .ok ()
  match validation with
  | .error e => (.error e, s0)
  | .ok _ =>
    let (bid2, s1) := Storage.InsertBid s0 bid
    (.ok bid2.ToOut, s1)

/-- `Bid.Status`: validate user, get bid, author-type authorization,
commit (read-only), return the status string. -/
def Bid.Status (s0 : Store) (username : String) (bidId : Nat) :
    Except Err String × Store :=
  match User.Validate s0 username with
  | .error e => (.error e, s0)
  | .ok _ =>
    match Storage.BidById s0 bidId with
    | .error e => (.error e, s0)
    | .ok bid =>
      match Bid.checkAuthor s0 username bid with
      | .error e => (.error e, s0)
      | .ok _ => (.ok bid.status, s0)

/-- `Bid.SetStatus`: validate user, get bid, author-type authorization,
`BidSetStatus`, commit. -/
def Bid.SetStatus (s0 : Store) (username : String) (bidId : Nat)
    (status : String) : Except Err BidOut × Store :=
  match User.Validate s0 username with
  | .error e => (.error e, s0)
  | .ok _ =>
    match Storage.BidById s0 bidId with
    | .error e => (.error e, s0)
    | .ok bid =>
      match Bid.checkAuthor s0 username bid with
      | .error e => (.error e, s0)
      | .ok _ =>
        match Storage.BidSetStatus s0 bidId status with
        | (.error e, _) => (.error e, s0)
        | (.ok bid2, s1) => (.ok bid2.ToOut, s1)

/-- `Bid.Edit`: validate user, get bid, author-type authorization, apply
the patch to a copy, bump its version, `UpdateBid`, archive the pre-edit
record via `Rollback.SaveBid`, commit. -/
def Bid.Edit (s0 : Store) (username : String) (bidId : Nat)
    (patch : BidPatch) : Except Err BidOut × Store :=
  match User.Validate s0 username with
  | .error e => (.error e, s0)
  | .ok _ =>
    match Storage.BidById s0 bidId with
    | .error e => (.error e, s0)
    | .ok bid =>
      match Bid.checkAuthor s0 username bid with
      | .error e => (.error e, s0)
      | .ok _ =>
        let newBid0 := bid.Patch patch
        let newBid := { newBid0 with version := newBid0.version + 1 }
        let s1 := Storage.UpdateBid s0 newBid
        match Rollback.SaveBid s1 bid with
        | (.error e, _) => (.error e, s0)
        | (.ok _, s2) => (.ok newBid.ToOut, s2)

/-- `Bid.Rollback`: validate user, get the current bid, author-type
authorization, `Rollback.SwapBid`, then force the snapshot's version to
`current.version + 1` and its status to the current status, re-insert via
`InsertBid` and commit. -/
def Bid.Rollback (s0 : Store) (username : String) (bidId : Nat)
    (version : Int) : Except Err BidOut × Store :=
  match User.Validate s0 username with
  | .error e => (.error e, s0)
  | .ok _ =>
    match Storage.BidById s0 bidId with
    | .error e => (.error e, s0)
    | .ok bid =>
      match Bid.checkAuthor s0 username bid with
      | .error e => (.error e, s0)
      | .ok _ =>
        match Rollback.SwapBid s0 bidId version bid with
        | (.error .versionNotFound, _) => (.error .versionNotFound, s0)
        | (.error e, _) => (.error e, s0)
        | (.ok recoveredBid, s1) =>
          let recovered := { recoveredBid with
            version := bid.version + 1, status := bid.status }
          let (newBid, s2) := Storage.InsertBid s1 recovered
          (.ok newBid.ToOut, s2)

/-- `Bid.SubmitDecision`: validate user, get bid, get the bid's tender via
the tender service, check permission against the tender's organization,
resolve the requester's id, upsert the decision, fetch all decisions for
the bid, fetch the organization size, compute
`required_approves = min(orgSize, QUORUM_SIZE)` and the summary.  If the
summary is inconclusive (`"null"`) the function returns the bid unchanged
*before* `Commit`, so the deferred rollback discards the transaction and
the original store is returned.  If conclusive, the bid's status is set
to `Canceled`, `UpdateBid` runs and the transaction commits. -/
def Bid.SubmitDecision (s0 : Store) (username : String) (bidId : Nat)
    (decision : String) : Except Err BidOut × Store :=
  match User.Validate s0 username with
  | .error e => (.error e, s0)
  | .ok _ =>
    match Storage.BidById s0 bidId with
    | .error e => (.error e, s0)
    | .ok bid =>
      match Tender.fetch s0 bid.tenderId with
      | .error e => (.error e, s0)
      | .ok tender =>
        match User.Permission s0 username tender.orgId with
        | .error e => (.error e, s0)
        | .ok _ =>
          match User.UserId s0 username with
          | .error e => (.error e, s0)
          | .ok userId =>
            let s1 := Storage.InsertDecision s0
              { userId := userId, bidId := bid.id, decision := decision }
            let decisions := Storage.Decisions s1 bidId
            match User.OrgSize s1 tender.orgId with
            | .error e => (.error e, s0)
            | .ok orgSize =>
              let requiredApproves := min orgSize QUORUM_SIZE
              let summary := decisionSummary decisions requiredApproves
              if summary = "null" then
                (.ok bid.ToOut, s0)
              else
                let bid2 := { bid with status := "Canceled" }
                let s2 := Storage.UpdateBid s1 bid2
                (.ok bid2.ToOut, s2)

/-! ## Concrete fixtures used by witnesses and counterexamples -/

/-- A published tender of organization 1 at version 3. -/
def demoT1 : Tender :=
  { orgId := 1, name := "t", desc := "d", serviceType := "Delivery",
    id := 10, status := "Published", version := 3, createdAt := 5 }

/-- A second tender, owned by organization 3, at version 1. -/
def demoT2 : Tender :=
  { orgId := 3, name := "t2", desc := "d2", serviceType := "Delivery",
    id := 11, status := "Published", version := 1, createdAt := 8 }

/-- A user-authored bid (author: user 2 = bob) on tender 10, version 2. -/
def demoB1 : Bid :=
  { tenderId := 10, name := "b", desc := "bd", authorType := "User", authorId := 2,
    id := 20, version := 2, status := "Published", createdAt := 6 }

/-- An organization-authored bid (author: organization 1) on tender 10. -/
def demoB2 : Bid :=
  { tenderId := 10, name := "b2", desc := "bd2", authorType := "Organization", authorId := 1,
    id := 21, version := 1, status := "Published", createdAt := 7 }

/-- A user-authored bid (author: user 4 = dave) on tender 11. -/
def demoB3 : Bid :=
  { tenderId := 11, name := "b3", desc := "bd3", authorType := "User", authorId := 4,
    id := 22, version := 1, status := "Published", createdAt := 9 }

/-- The archived snapshot of tender 10 at version 1 (different content and
status than the current version). -/
def demoSnapT : Tender :=
  { orgId := 1, name := "told", desc := "dold", serviceType := "Construction",
    id := 10, status := "Created", version := 1, createdAt := 5 }

/-- The archived snapshot of bid 20 at version 1. -/
def demoSnapB : Bid :=
  { tenderId := 10, name := "bold", desc := "bdold", authorType := "User", authorId := 2,
    id := 20, version := 1, status := "Created", createdAt := 6 }

/-- The demo database: organization 1 has representatives alice(1), bob(2),
carol(3); organization 2 has none; organization 3 has dave(4). -/
def demo : Store :=
  { employees := [⟨1, "alice"⟩, ⟨2, "bob"⟩, ⟨3, "carol"⟩, ⟨4, "dave"⟩]
    orgs := [1, 2, 3]
    orgResponsible := [(1, 1), (1, 2), (1, 3), (3, 4)]
    tenders := [demoT1, demoT2]
    bids := [demoB1, demoB2, demoB3]
    rollbackTenders := [demoSnapT]
    rollbackBids := [demoSnapB]
    decisions := []
    nextId := 100
    now := 50 }

/-- A `BidNew` whose author type is the unknown string `"Ghost"`. -/
def demoGhostNew : BidNew :=
  { tenderId := 10, name := "n", desc := "nd", authorType := "Ghost", authorId := 77 }

/-! ## The spec's description of the quorum reduction -/

/-- The quorum outcome as the specification words it, for comparison with
the code's scan: any `Rejected` decision anywhere makes the outcome
`Rejected`; otherwise the outcome is `Approved` exactly when the number
of `Approved` decisions reaches `requiredApproves`; otherwise it is
inconclusive (`"null"`). -/
def specOutcome (decisions : List Decision) (requiredApproves : Int) : String :=
  if decisions.any (fun d => d.decision == "Rejected") then "Rejected"
  else if requiredApproves ≤ (decisions.countP (fun d => d.decision == "Approved") : Int) then
    "Approved"
  else "null"

/-! ## Helper lemmas -/

theorem decisionScan_fst_of_reject (ds : List Decision) (c : Int)
    (h : ds.any (fun d => d.decision == "Rejected") = true) :
    (decisionScan ds c).1 = "Rejected" := by
  induction ds generalizing c with
  | nil => simp at h
  | cons d rest ih =>
    simp only [List.any_cons, Bool.or_eq_true, beq_iff_eq] at h
    unfold decisionScan
    by_cases hA : d.decision = "Approved"
    · rw [if_pos hA]
      rcases h with h | h
      · rw [hA] at h; exact absurd h (by decide)
      · exact ih (c + 1) (by simpa using h)
    · rw [if_neg hA]
      by_cases hR : d.decision = "Rejected"
      · rw [if_pos hR]
      · rw [if_neg hR]
        rcases h with h | h
        · exact absurd h hR
        · exact ih c (by simpa using h)

theorem decisionScan_of_no_reject (ds : List Decision) (c : Int)
    (h : ds.any (fun d => d.decision == "Rejected") = false) :
    decisionScan ds c = ("null", c + (ds.countP (fun d => d.decision == "Approved") : Int)) := by
  induction ds generalizing c with
  | nil => simp [decisionScan]
  | cons d rest ih =>
    simp only [List.any_cons, Bool.or_eq_false_iff, beq_eq_false_iff_ne] at h
    unfold decisionScan
    by_cases hA : d.decision = "Approved"
    · rw [if_pos hA, ih (c + 1) (by simpa using h.2)]
      have hc : (d :: rest).countP (fun d => d.decision == "Approved") =
          rest.countP (fun d => d.decision == "Approved") + 1 := by
        simp [List.countP_cons, hA]
      rw [hc]
      refine Prod.ext rfl ?_
      push_cast; ring
    · rw [if_neg hA, if_neg h.1, ih c (by simpa using h.2)]
      have hc : (d :: rest).countP (fun d => d.decision == "Approved") =
          rest.countP (fun d => d.decision == "Approved") := by
        simp [List.countP_cons, hA]
      rw [hc]

/-- The code's summary computation agrees, on every decision list and
every threshold, with the specification's description of the reduction. -/
theorem decisionSummary_eq_specOutcome (ds : List Decision) (req : Int) :
    decisionSummary ds req = specOutcome ds req := by
  unfold decisionSummary specOutcome
  cases hany : ds.any (fun d => d.decision == "Rejected") with
  | true =>
    have h1 := decisionScan_fst_of_reject ds 0 hany
    rw [if_neg (by rw [h1]; rintro ⟨h2, -⟩; exact h2 rfl), h1, if_pos rfl]
  | false =>
    rw [decisionScan_of_no_reject ds 0 hany]
    simp only [zero_add]
    by_cases hle : req ≤ (ds.countP (fun d => d.decision == "Approved") : Int)
    · rw [if_pos ⟨by decide, hle⟩, if_neg (by simp [hany]), if_pos hle]
    · rw [if_neg (by rintro ⟨-, h2⟩; exact hle h2), if_neg (by simp [hany]), if_neg hle]

/-- `User.OrgSize` always succeeds and returns the join row count: the
`COUNT(*)` query yields exactly one row, so the not-found branch is
unreachable. -/
theorem orgSize_eval (s : Store) (orgId : Nat) :
    User.OrgSize s orgId = .ok (orgRepCount s orgId) := rfl

theorem tenderById_ok_iff (s : Store) (id : Nat) (t : Tender) :
    Storage.TenderById s id = .ok t ↔
      s.tenders.find? (fun x => x.id == id) = some t := by
  unfold Storage.TenderById
  cases hf : s.tenders.find? (fun x => x.id == id) <;> simp [hf]

theorem bidById_ok_iff (s : Store) (id : Nat) (b : Bid) :
    Storage.BidById s id = .ok b ↔
      s.bids.find? (fun x => x.id == id) = some b := by
  unfold Storage.BidById
  cases hf : s.bids.find? (fun x => x.id == id) <;> simp [hf]

/-- A validated username resolves to a user id (`Storage.UserId` finds a
row because `VerifyUser` saw one). -/
theorem userId_of_validate (s : Store) (u : String)
    (h : User.Validate s u = .ok ()) : ∃ uid, User.UserId s u = .ok uid := by
  unfold User.Validate at h
  by_cases hv : Storage.VerifyUser s u
  · unfold Storage.VerifyUser at hv
    obtain ⟨e, he, hp⟩ := List.any_eq_true.mp hv
    have hs : (s.employees.find? (fun e => e.username == u)).isSome :=
      List.find?_isSome.mpr ⟨e, he, hp⟩
    obtain ⟨e', he'⟩ := Option.isSome_iff_exists.mp hs
    refine ⟨e'.id, ?_⟩
    unfold User.UserId Storage.UserId
    rw [he']
  · rw [if_neg hv] at h
    exact absurd h (by simp)

/-- Applying a tender patch overwrites exactly the non-nil fields. -/
theorem tenderPatch_fields (t : Tender) (p : TenderPatch) :
    t.Patch p = { t with name := p.name.getD t.name, desc := p.desc.getD t.desc,
                         serviceType := p.serviceType.getD t.serviceType } := by
  rcases p with ⟨pn, pd, pst⟩
  cases pn <;> cases pd <;> cases pst <;> rfl

/-- Applying a bid patch overwrites exactly the non-nil fields. -/
theorem bidPatch_fields (b : Bid) (p : BidPatch) :
    b.Patch p = { b with name := p.name.getD b.name, desc := p.desc.getD b.desc } := by
  rcases p with ⟨pn, pd⟩
  cases pn <;> cases pd <;> rfl

/-! ## Claim theorems -/

/-- C8 (counterexample): in the demo store organization 2 exists and has
no registered representatives, yet `OrgSize(2)` returns `ok 0` instead of
failing with `OrganizationNotFound` — the claimed failure never happens,
because the `COUNT(*)` query always produces a row. -/
theorem orgSize_empty_org_counterexample :
    User.OrgSize demo 2 = .ok 0 ∧
      User.OrgSize demo 2 ≠ .error .organizationNotFound :=
  ⟨rfl, fun h =>
    Except.noConfusion ((show User.OrgSize demo 2 = Except.ok 0 from rfl) ▸ h)⟩

/-- C8 (amended): `OrgSize(orgId)` never fails with
`OrganizationNotFound`; it returns the representative count of the
`employee`/`organization_responsible`/`organization` join — which is `0`,
with no error, when the organization has no representatives (or does not
exist) — and for an organization with at least one representative that
count is the number of its representatives. -/
theorem orgSize_returns_join_count (s : Store) (orgId : Nat) :
    User.OrgSize s orgId = .ok (orgRepCount s orgId) :=
  orgSize_eval s orgId

/-- C10: for a `BidNew` whose author type is neither `User` nor
`Organization`, `Bid.New` runs no author-existence validation at all (the
author-type switch has no default branch) and goes straight to the
insert, succeeding for every store — even one with no users and no
organizations. -/
theorem bidNew_unknown_author_type_skips_validation
    (s0 : Store) (bidNew : BidNew)
    (h1 : bidNew.authorType ≠ "User") (h2 : bidNew.authorType ≠ "Organization") :
    Bid.New s0 bidNew =
      (.ok (Storage.InsertBid s0 bidNew.ToBid).1.ToOut,
       (Storage.InsertBid s0 bidNew.ToBid).2) := by
  unfold Bid.New
  rw [if_neg h1, if_neg h2]

/-- Witness for C10: a bid whose author type is the unknown string
`"Ghost"` and whose author id (77) belongs to no user and no
organization is inserted without any error. -/
theorem bidNew_unknown_author_type_skips_validation_witness :
    Bid.New demo demoGhostNew =
      (.ok (Storage.InsertBid demo demoGhostNew.ToBid).1.ToOut,
       (Storage.InsertBid demo demoGhostNew.ToBid).2) :=
  bidNew_unknown_author_type_skips_validation demo demoGhostNew
    (by decide) (by decide)

/-- C2 (code bug evaluation): an inconclusive `SubmitDecision` — alice's
first `Approved` vote on bid 20, whose tender belongs to organization 1
with 3 representatives, so `required_approves = 3 > 1` — returns the bid
unmodified with no error, but the returned store is the *original* store:
the code path returns before `Commit`, so the deferred transaction
rollback discards the upserted vote and the decision table stays empty,
while the claim (and the spec) say the vote is committed. -/
theorem submitDecision_inconclusive_discards_vote :
    Bid.SubmitDecision demo "alice" 20 "Approved" = (.ok demoB1.ToOut, demo) ∧
      demo.decisions = [] ∧
      (Bid.SubmitDecision demo "alice" 20 "Approved").2.decisions = [] :=
  ⟨rfl, rfl, rfl⟩

/-- C7: a successful `SetStatus` on a tender (first conjunct) or a bid
(second conjunct) replaces only the `status` field of the targeted row:
the returned entity is the stored one with just `status` overwritten
(version, content fields and `createdAt` intact), the committed store
differs from the original only in that row's status column, and in
particular the history stores (`rollbackTenders` / `rollbackBids`) are
untouched — no snapshot is archived. -/
theorem setStatus_only_status_changes :
    (∀ (s0 : Store) (u : String) (tenderId : Nat) (st : String) (tender : Tender),
      User.Validate s0 u = .ok () →
      Storage.TenderById s0 tenderId = .ok tender →
      User.Permission s0 u tender.orgId = .ok () →
      Tender.SetStatus s0 u tenderId st =
        (.ok (Tender.ToOut { tender with status := st }),
         { s0 with tenders := s0.tenders.map (fun r =>
             if r.id = tenderId then { r with status := st } else r) })) ∧
    (∀ (s0 : Store) (u : String) (bidId : Nat) (st : String) (bid : Bid),
      User.Validate s0 u = .ok () →
      Storage.BidById s0 bidId = .ok bid →
      Bid.checkAuthor s0 u bid = .ok () →
      Bid.SetStatus s0 u bidId st =
        (.ok (Bid.ToOut { bid with status := st }),
         { s0 with bids := s0.bids.map (fun r =>
             if r.id = bidId then { r with status := st } else r) })) := by
  constructor
  · intro s0 u tenderId st tender hu ht hp
    have hf := (tenderById_ok_iff s0 tenderId tender).mp ht
    unfold Tender.SetStatus Storage.TenderSetStatus
    simp only [hu, ht, hp, hf]
  · intro s0 u bidId st bid hu hb hca
    have hf := (bidById_ok_iff s0 bidId bid).mp hb
    unfold Bid.SetStatus Storage.BidSetStatus
    simp only [hu, hb, hca, hf]

/-- Witness for C7: alice closes tender 10 and bob cancels bid 20; both
succeed, and the resulting stores change exactly the one status column. -/
theorem setStatus_only_status_changes_witness :
    (Tender.SetStatus demo "alice" 10 "Closed" =
      (.ok (Tender.ToOut { demoT1 with status := "Closed" }),
       { demo with tenders := demo.tenders.map (fun r =>
           if r.id = 10 then { r with status := "Closed" } else r) })) ∧
    (Bid.SetStatus demo "bob" 20 "Canceled" =
      (.ok (Bid.ToOut { demoB1 with status := "Canceled" }),
       { demo with bids := demo.bids.map (fun r =>
           if r.id = 20 then { r with status := "Canceled" } else r) })) :=
  ⟨setStatus_only_status_changes.1 demo "alice" 10 "Closed" demoT1 rfl rfl rfl,
   setStatus_only_status_changes.2 demo "bob" 20 "Canceled" demoB1 rfl rfl rfl⟩

theorem recoverTender_error_iff (s : Store) (id : Nat) (v : Int) :
    Storage.RecoverTender s id v = .error .versionNotFound ↔
      s.rollbackTenders.find? (fun t => t.id == id && t.version == v) = none := by
  unfold Storage.RecoverTender
  cases hf : s.rollbackTenders.find? (fun t => t.id == id && t.version == v) <;> simp [hf]

theorem recoverBid_error_iff (s : Store) (id : Nat) (v : Int) :
    Storage.RecoverBid s id v = .error .versionNotFound ↔
      s.rollbackBids.find? (fun b => b.id == id && b.version == v) = none := by
  unfold Storage.RecoverBid
  cases hf : s.rollbackBids.find? (fun b => b.id == id && b.version == v) <;> simp [hf]

/-- C4: a successful `Edit` of a tender (first conjunct) or a bid (second
conjunct) — including one whose patch has no fields set — returns an
entity at the pre-edit version plus 1 whose content is the old content
with exactly the non-nil patch fields overwritten (id, status and
createdAt untouched), and the committed store's history table is the old
one with exactly the pre-edit record appended, so the snapshot at the
pre-edit version round-trips through `RecoverTender`/`RecoverBid`. -/
theorem edit_increments_version_and_archives :
    (∀ (s0 : Store) (u : String) (tenderId : Nat) (patch : TenderPatch) (tender : Tender),
      User.Validate s0 u = .ok () →
      Storage.TenderById s0 tenderId = .ok tender →
      User.Permission s0 u tender.orgId = .ok () →
      ∃ out s2, Tender.Edit s0 u tenderId patch = (.ok out, s2) ∧
        out.version = tender.version + 1 ∧
        out.name = patch.name.getD tender.name ∧
        out.desc = patch.desc.getD tender.desc ∧
        out.serviceType = patch.serviceType.getD tender.serviceType ∧
        out.orgId = tender.orgId ∧ out.id = tender.id ∧
        out.status = tender.status ∧ out.createdAt = tender.createdAt ∧
        s2.rollbackTenders = s0.rollbackTenders ++ [tender] ∧
        (Storage.RecoverTender s0 tender.id tender.version = .error .versionNotFound →
          Storage.RecoverTender s2 tender.id tender.version = .ok tender)) ∧
    (∀ (s0 : Store) (u : String) (bidId : Nat) (patch : BidPatch) (bid : Bid),
      User.Validate s0 u = .ok () →
      Storage.BidById s0 bidId = .ok bid →
      Bid.checkAuthor s0 u bid = .ok () →
      ∃ out s2, Bid.Edit s0 u bidId patch = (.ok out, s2) ∧
        out.version = bid.version + 1 ∧
        out.name = patch.name.getD bid.name ∧
        out.desc = patch.desc.getD bid.desc ∧
        out.tenderId = bid.tenderId ∧ out.authorType = bid.authorType ∧
        out.authorId = bid.authorId ∧ out.id = bid.id ∧
        out.status = bid.status ∧ out.createdAt = bid.createdAt ∧
        s2.rollbackBids = s0.rollbackBids ++ [bid] ∧
        (Storage.RecoverBid s0 bid.id bid.version = .error .versionNotFound →
          Storage.RecoverBid s2 bid.id bid.version = .ok bid)) := by
  constructor
  · intro s0 u tenderId patch tender hu ht hp
    unfold Tender.Edit Rollback.SaveTender
    simp only [hu, ht, hp]
    refine ⟨_, _, rfl, ?_, ?_, ?_, ?_, ?_, ?_, ?_, ?_, ?_, ?_⟩
    · simp [Tender.ToOut, tenderPatch_fields]
    · simp [Tender.ToOut, tenderPatch_fields]
    · simp [Tender.ToOut, tenderPatch_fields]
    · simp [Tender.ToOut, tenderPatch_fields]
    · simp [Tender.ToOut, tenderPatch_fields]
    · simp [Tender.ToOut, tenderPatch_fields]
    · simp [Tender.ToOut, tenderPatch_fields]
    · simp [Tender.ToOut, tenderPatch_fields]
    · simp [Storage.SaveTender, Storage.UpdateTender]
    · intro hnone
      have hfn := (recoverTender_error_iff s0 tender.id tender.version).mp hnone
      unfold Storage.RecoverTender
      simp [Storage.SaveTender, Storage.UpdateTender, List.find?_append, hfn, List.find?]
  · intro s0 u bidId patch bid hu hb hca
    unfold Bid.Edit Rollback.SaveBid
    simp only [hu, hb, hca]
    refine ⟨_, _, rfl, ?_, ?_, ?_, ?_, ?_, ?_, ?_, ?_, ?_, ?_, ?_⟩
    · simp [Bid.ToOut, bidPatch_fields]
    · simp [Bid.ToOut, bidPatch_fields]
    · simp [Bid.ToOut, bidPatch_fields]
    · simp [Bid.ToOut, bidPatch_fields]
    · simp [Bid.ToOut, bidPatch_fields]
    · simp [Bid.ToOut, bidPatch_fields]
    · simp [Bid.ToOut, bidPatch_fields]
    · simp [Bid.ToOut, bidPatch_fields]
    · simp [Bid.ToOut, bidPatch_fields]
    · simp [Storage.SaveBid, Storage.UpdateBid]
    · intro hnone
      have hfn := (recoverBid_error_iff s0 bid.id bid.version).mp hnone
      unfold Storage.RecoverBid
      simp [Storage.SaveBid, Storage.UpdateBid, List.find?_append, hfn, List.find?]

/-- Witness for C4: alice edits tender 10 with the all-nil patch (the
no-op edit still bumps the version and archives an identical snapshot)
and bob edits bid 20 with a name-only patch. -/
theorem edit_increments_version_and_archives_witness :
    (∃ out s2, Tender.Edit demo "alice" 10 ⟨none, none, none⟩ = (.ok out, s2) ∧
      out.version = demoT1.version + 1 ∧
      out.name = (none : Option String).getD demoT1.name ∧
      out.desc = (none : Option String).getD demoT1.desc ∧
      out.serviceType = (none : Option String).getD demoT1.serviceType ∧
      out.orgId = demoT1.orgId ∧ out.id = demoT1.id ∧
      out.status = demoT1.status ∧ out.createdAt = demoT1.createdAt ∧
      s2.rollbackTenders = demo.rollbackTenders ++ [demoT1] ∧
      (Storage.RecoverTender demo demoT1.id demoT1.version = .error .versionNotFound →
        Storage.RecoverTender s2 demoT1.id demoT1.version = .ok demoT1)) ∧
    (∃ out s2, Bid.Edit demo "bob" 20 ⟨some "newname", none⟩ = (.ok out, s2) ∧
      out.version = demoB1.version + 1 ∧
      out.name = (some "newname").getD demoB1.name ∧
      out.desc = (none : Option String).getD demoB1.desc ∧
      out.tenderId = demoB1.tenderId ∧ out.authorType = demoB1.authorType ∧
      out.authorId = demoB1.authorId ∧ out.id = demoB1.id ∧
      out.status = demoB1.status ∧ out.createdAt = demoB1.createdAt ∧
      s2.rollbackBids = demo.rollbackBids ++ [demoB1] ∧
      (Storage.RecoverBid demo demoB1.id demoB1.version = .error .versionNotFound →
        Storage.RecoverBid s2 demoB1.id demoB1.version = .ok demoB1)) :=
  ⟨edit_increments_version_and_archives.1 demo "alice" 10 ⟨none, none, none⟩ demoT1
      rfl rfl rfl,
   edit_increments_version_and_archives.2 demo "bob" 20 ⟨some "newname", none⟩ demoB1
      rfl rfl rfl⟩

/-- C3: `Rollback(username, id, targetVersion)` on a tender (first two
conjuncts) or a bid (last two): once the current version has been
archived by the swap, if the history store holds a snapshot at
`targetVersion` the operation succeeds and returns an entity whose
content fields equal the snapshot's, whose status is the *current*
entity's status (not the snapshot's), and whose version is
`current.version + 1`, with the current version archived in the committed
history store; if no snapshot is found at `targetVersion` the operation
fails with `VersionNotFound` (and the store is rolled back). -/
theorem rollback_restores_snapshot_forward :
    (∀ (s0 : Store) (u : String) (id : Nat) (v : Int) (tender snap : Tender),
      User.Validate s0 u = .ok () →
      Storage.TenderById s0 id = .ok tender →
      User.Permission s0 u tender.orgId = .ok () →
      Storage.RecoverTender (Storage.SaveTender s0 tender) id v = .ok snap →
      ∃ out s2, Tender.Rollback s0 u id v = (.ok out, s2) ∧
        out.orgId = snap.orgId ∧ out.name = snap.name ∧ out.desc = snap.desc ∧
        out.serviceType = snap.serviceType ∧
        out.status = tender.status ∧ out.version = tender.version + 1 ∧
        tender ∈ s2.rollbackTenders) ∧
    (∀ (s0 : Store) (u : String) (id : Nat) (v : Int) (tender : Tender),
      User.Validate s0 u = .ok () →
      Storage.TenderById s0 id = .ok tender →
      User.Permission s0 u tender.orgId = .ok () →
      Storage.RecoverTender (Storage.SaveTender s0 tender) id v = .error .versionNotFound →
      Tender.Rollback s0 u id v = (.error .versionNotFound, s0)) ∧
    (∀ (s0 : Store) (u : String) (id : Nat) (v : Int) (bid snap : Bid),
      User.Validate s0 u = .ok () →
      Storage.BidById s0 id = .ok bid →
      Bid.checkAuthor s0 u bid = .ok () →
      Storage.RecoverBid (Storage.SaveBid s0 bid) id v = .ok snap →
      ∃ out s2, Bid.Rollback s0 u id v = (.ok out, s2) ∧
        out.tenderId = snap.tenderId ∧ out.name = snap.name ∧ out.desc = snap.desc ∧
        out.authorType = snap.authorType ∧ out.authorId = snap.authorId ∧
        out.status = bid.status ∧ out.version = bid.version + 1 ∧
        bid ∈ s2.rollbackBids) ∧
    (∀ (s0 : Store) (u : String) (id : Nat) (v : Int) (bid : Bid),
      User.Validate s0 u = .ok () →
      Storage.BidById s0 id = .ok bid →
      Bid.checkAuthor s0 u bid = .ok () →
      Storage.RecoverBid (Storage.SaveBid s0 bid) id v = .error .versionNotFound →
      Bid.Rollback s0 u id v = (.error .versionNotFound, s0)) := by
  refine ⟨?_, ?_, ?_, ?_⟩
  · intro s0 u id v tender snap hu ht hp hswap
    unfold Tender.Rollback Rollback.SwapTender
    simp only [hu, ht, hp, hswap]
    refine ⟨_, _, rfl, ?_, ?_, ?_, ?_, ?_, ?_, ?_⟩
    all_goals simp [Storage.InsertTender, Storage.SaveTender, Tender.ToOut]
  · intro s0 u id v tender hu ht hp hswap
    unfold Tender.Rollback Rollback.SwapTender
    simp only [hu, ht, hp, hswap]
  · intro s0 u id v bid snap hu hb hca hswap
    unfold Bid.Rollback Rollback.SwapBid
    simp only [hu, hb, hca, hswap]
    refine ⟨_, _, rfl, ?_, ?_, ?_, ?_, ?_, ?_, ?_, ?_⟩
    all_goals simp [Storage.InsertBid, Storage.SaveBid, Bid.ToOut]
  · intro s0 u id v bid hu hb hca hswap
    unfold Bid.Rollback Rollback.SwapBid
    simp only [hu, hb, hca, hswap]

/-- Witness for C3: alice rolls tender 10 back to version 1 (snapshot
`demoSnapT` exists, content restored, status stays `Published`, version
becomes 4) and to the absent version 2 (fails with `VersionNotFound`);
bob rolls bid 20 back to version 1 and to the absent version 5. -/
theorem rollback_restores_snapshot_forward_witness :
    (∃ out s2, Tender.Rollback demo "alice" 10 1 = (.ok out, s2) ∧
      out.orgId = demoSnapT.orgId ∧ out.name = demoSnapT.name ∧ out.desc = demoSnapT.desc ∧
      out.serviceType = demoSnapT.serviceType ∧
      out.status = demoT1.status ∧ out.version = demoT1.version + 1 ∧
      demoT1 ∈ s2.rollbackTenders) ∧
    Tender.Rollback demo "alice" 10 2 = (.error .versionNotFound, demo) ∧
    (∃ out s2, Bid.Rollback demo "bob" 20 1 = (.ok out, s2) ∧
      out.tenderId = demoSnapB.tenderId ∧ out.name = demoSnapB.name ∧ out.desc = demoSnapB.desc ∧
      out.authorType = demoSnapB.authorType ∧ out.authorId = demoSnapB.authorId ∧
      out.status = demoB1.status ∧ out.version = demoB1.version + 1 ∧
      demoB1 ∈ s2.rollbackBids) ∧
    Bid.Rollback demo "bob" 20 5 = (.error .versionNotFound, demo) :=
  ⟨rollback_restores_snapshot_forward.1 demo "alice" 10 1 demoT1 demoSnapT rfl rfl rfl rfl,
   rollback_restores_snapshot_forward.2.1 demo "alice" 10 2 demoT1 rfl rfl rfl rfl,
   rollback_restores_snapshot_forward.2.2.1 demo "bob" 20 1 demoB1 demoSnapB rfl rfl rfl rfl,
   rollback_restores_snapshot_forward.2.2.2 demo "bob" 20 5 demoB1 rfl rfl rfl rfl⟩

theorem wfb_tender_ids (s : Store) (h : s.wfb = true) :
    ∀ t ∈ s.tenders, t.id < s.nextId := by
  unfold Store.wfb at h
  rw [Bool.and_eq_true] at h
  intro t ht
  simpa using List.all_eq_true.mp h.1 t ht

theorem wfb_bid_ids (s : Store) (h : s.wfb = true) :
    ∀ b ∈ s.bids, b.id < s.nextId := by
  unfold Store.wfb at h
  rw [Bool.and_eq_true] at h
  intro b hb
  simpa using List.all_eq_true.mp h.2 b hb

/-- C9: a successful `Rollback` persists the restored version through a
plain insert in which the store assigns a fresh id (`nextId`, modelling
the `uuid_generate_v4()` column default) and a fresh `createdAt`
(`now()`), so the returned entity's id differs from every stored entity's
id — in particular from the id that was rolled back — and the committed
entity table is exactly the old table with the restored record appended:
the pre-rollback row is still present, unmodified. -/
theorem rollback_insert_fresh_id :
    (∀ (s0 : Store) (u : String) (id : Nat) (v : Int) (tender snap : Tender),
      s0.wfb = true →
      User.Validate s0 u = .ok () →
      Storage.TenderById s0 id = .ok tender →
      User.Permission s0 u tender.orgId = .ok () →
      Storage.RecoverTender (Storage.SaveTender s0 tender) id v = .ok snap →
      ∃ out s2, Tender.Rollback s0 u id v = (.ok out, s2) ∧
        out.id = s0.nextId ∧ out.createdAt = s0.now ∧
        (∀ t ∈ s0.tenders, t.id ≠ out.id) ∧ out.id ≠ id ∧
        s2.tenders = s0.tenders ++
          [{ snap with version := tender.version + 1, status := tender.status, id := s0.nextId, createdAt := s0.now }] ∧
        tender ∈ s2.tenders) ∧
    (∀ (s0 : Store) (u : String) (id : Nat) (v : Int) (bid snap : Bid),
      s0.wfb = true →
      User.Validate s0 u = .ok () →
      Storage.BidById s0 id = .ok bid →
      Bid.checkAuthor s0 u bid = .ok () →
      Storage.RecoverBid (Storage.SaveBid s0 bid) id v = .ok snap →
      ∃ out s2, Bid.Rollback s0 u id v = (.ok out, s2) ∧
        out.id = s0.nextId ∧ out.createdAt = s0.now ∧
        (∀ b ∈ s0.bids, b.id ≠ out.id) ∧ out.id ≠ id ∧
        s2.bids = s0.bids ++
          [{ snap with version := bid.version + 1, status := bid.status, id := s0.nextId, createdAt := s0.now }] ∧
        bid ∈ s2.bids) := by
  constructor
  · intro s0 u id v tender snap hwf hu ht hp hswap
    have hids := wfb_tender_ids s0 hwf
    have hfs := (tenderById_ok_iff s0 id tender).mp ht
    have hmem : tender ∈ s0.tenders := List.mem_of_find?_eq_some hfs
    have hidt : tender.id = id := by simpa using List.find?_some hfs
    unfold Tender.Rollback Rollback.SwapTender
    simp only [hu, ht, hp, hswap]
    refine ⟨_, _, rfl, ?_, ?_, ?_, ?_, ?_, ?_⟩
    · simp [Storage.InsertTender, Storage.SaveTender, Tender.ToOut]
    · simp [Storage.InsertTender, Storage.SaveTender, Tender.ToOut]
    · intro t htm
      have := hids t htm
      simp only [Storage.InsertTender, Storage.SaveTender, Tender.ToOut]
      omega
    · have h1 := hids tender hmem
      simp only [Storage.InsertTender, Storage.SaveTender, Tender.ToOut]
      omega
    · simp [Storage.InsertTender, Storage.SaveTender]
    · simp only [Storage.InsertTender, Storage.SaveTender, List.mem_append]
      exact Or.inl hmem
  · intro s0 u id v bid snap hwf hu hb hca hswap
    have hids := wfb_bid_ids s0 hwf
    have hfs := (bidById_ok_iff s0 id bid).mp hb
    have hmem : bid ∈ s0.bids := List.mem_of_find?_eq_some hfs
    have hidt : bid.id = id := by simpa using List.find?_some hfs
    unfold Bid.Rollback Rollback.SwapBid
    simp only [hu, hb, hca, hswap]
    refine ⟨_, _, rfl, ?_, ?_, ?_, ?_, ?_, ?_⟩
    · simp [Storage.InsertBid, Storage.SaveBid, Bid.ToOut]
    · simp [Storage.InsertBid, Storage.SaveBid, Bid.ToOut]
    · intro b hbm
      have := hids b hbm
      simp only [Storage.InsertBid, Storage.SaveBid, Bid.ToOut]
      omega
    · have h1 := hids bid hmem
      simp only [Storage.InsertBid, Storage.SaveBid, Bid.ToOut]
      omega
    · simp [Storage.InsertBid, Storage.SaveBid]
    · simp only [Storage.InsertBid, Storage.SaveBid, List.mem_append]
      exact Or.inl hmem

/-- Witness for C9: in the (well-formed) demo store, rolling tender 10
back to version 1 returns an entity with the fresh id 100 and fresh
createdAt 50, distinct from the rolled-back id 10, with tender 10's
current row still stored; same for bid 20. -/
theorem rollback_insert_fresh_id_witness :
    (∃ out s2, Tender.Rollback demo "alice" 10 1 = (.ok out, s2) ∧
      out.id = demo.nextId ∧ out.createdAt = demo.now ∧
      (∀ t ∈ demo.tenders, t.id ≠ out.id) ∧ out.id ≠ 10 ∧
      s2.tenders = demo.tenders ++
        [{ demoSnapT with version := demoT1.version + 1, status := demoT1.status, id := demo.nextId, createdAt := demo.now }] ∧
      demoT1 ∈ s2.tenders) ∧
    (∃ out s2, Bid.Rollback demo "bob" 20 1 = (.ok out, s2) ∧
      out.id = demo.nextId ∧ out.createdAt = demo.now ∧
      (∀ b ∈ demo.bids, b.id ≠ out.id) ∧ out.id ≠ 20 ∧
      s2.bids = demo.bids ++
        [{ demoSnapB with version := demoB1.version + 1, status := demoB1.status, id := demo.nextId, createdAt := demo.now }] ∧
      demoB1 ∈ s2.bids) :=
  ⟨rollback_insert_fresh_id.1 demo "alice" 10 1 demoT1 demoSnapT rfl rfl rfl rfl rfl,
   rollback_insert_fresh_id.2 demo "bob" 20 1 demoB1 demoSnapB rfl rfl rfl rfl rfl⟩

theorem recoverBid_error_eq (s : Store) (id : Nat) (v : Int) (e : Err)
    (h : Storage.RecoverBid s id v = .error e) : e = .versionNotFound := by
  unfold Storage.RecoverBid at h
  cases hf : s.rollbackBids.find? (fun b => b.id == id && b.version == v) <;>
    rw [hf] at h <;> simp_all

theorem checkAuthor_cases (s : Store) (u : String) (bid : Bid) (uid : Nat)
    (hid : User.UserId s u = .ok uid) :
    Bid.checkAuthor s u bid = .ok () ∨
      Bid.checkAuthor s u bid = .error .notEnoughPrivileges := by
  unfold Bid.checkAuthor
  by_cases hU : bid.authorType = "User"
  · rw [if_pos hU]
    simp only [hid]
    by_cases hne : uid ≠ bid.authorId
    · right; simp [hne]
    · left; simp [hne]
  · rw [if_neg hU]
    by_cases hO : bid.authorType = "Organization"
    · rw [if_pos hO]
      unfold User.Permission
      by_cases hperm : Storage.VerifyUserPermission s u bid.authorId
      · left; simp [hperm]
      · right; simp [hperm]
    · rw [if_neg hO]; left; rfl

theorem checkAuthor_user_nep_iff (s : Store) (u : String) (bid : Bid) (uid : Nat)
    (hA : bid.authorType = "User") (hid : User.UserId s u = .ok uid) :
    Bid.checkAuthor s u bid = .error .notEnoughPrivileges ↔ uid ≠ bid.authorId := by
  unfold Bid.checkAuthor
  rw [if_pos hA]
  simp only [hid]
  by_cases hne : uid ≠ bid.authorId
  · simp [hne]
  · simp [hne]

theorem checkAuthor_org_nep_iff (s : Store) (u : String) (bid : Bid)
    (hA : bid.authorType = "Organization") :
    Bid.checkAuthor s u bid = .error .notEnoughPrivileges ↔
      Storage.VerifyUserPermission s u bid.authorId = false := by
  unfold Bid.checkAuthor
  rw [if_neg (by simp [hA]), if_pos hA]
  unfold User.Permission
  by_cases hperm : Storage.VerifyUserPermission s u bid.authorId
  · simp [hperm]
  · simp [hperm]

theorem bidStatus_nep_iff (s0 : Store) (u : String) (bidId : Nat) (bid : Bid) (uid : Nat)
    (hu : User.Validate s0 u = .ok ()) (hb : Storage.BidById s0 bidId = .ok bid)
    (hid : User.UserId s0 u = .ok uid) :
    (Bid.Status s0 u bidId).1 = .error .notEnoughPrivileges ↔
      Bid.checkAuthor s0 u bid = .error .notEnoughPrivileges := by
  unfold Bid.Status
  rcases checkAuthor_cases s0 u bid uid hid with hca | hca <;> simp [hu, hb, hca]

theorem bidSetStatus_nep_iff (s0 : Store) (u : String) (bidId : Nat) (st : String)
    (bid : Bid) (uid : Nat)
    (hu : User.Validate s0 u = .ok ()) (hb : Storage.BidById s0 bidId = .ok bid)
    (hid : User.UserId s0 u = .ok uid) :
    (Bid.SetStatus s0 u bidId st).1 = .error .notEnoughPrivileges ↔
      Bid.checkAuthor s0 u bid = .error .notEnoughPrivileges := by
  have hf := (bidById_ok_iff s0 bidId bid).mp hb
  unfold Bid.SetStatus Storage.BidSetStatus
  rcases checkAuthor_cases s0 u bid uid hid with hca | hca <;> simp [hu, hb, hca, hf]

theorem bidEdit_nep_iff (s0 : Store) (u : String) (bidId : Nat) (patch : BidPatch)
    (bid : Bid) (uid : Nat)
    (hu : User.Validate s0 u = .ok ()) (hb : Storage.BidById s0 bidId = .ok bid)
    (hid : User.UserId s0 u = .ok uid) :
    (Bid.Edit s0 u bidId patch).1 = .error .notEnoughPrivileges ↔
      Bid.checkAuthor s0 u bid = .error .notEnoughPrivileges := by
  unfold Bid.Edit Rollback.SaveBid
  rcases checkAuthor_cases s0 u bid uid hid with hca | hca <;> simp [hu, hb, hca]

theorem bidRollback_nep_iff (s0 : Store) (u : String) (bidId : Nat) (v : Int)
    (bid : Bid) (uid : Nat)
    (hu : User.Validate s0 u = .ok ()) (hb : Storage.BidById s0 bidId = .ok bid)
    (hid : User.UserId s0 u = .ok uid) :
    (Bid.Rollback s0 u bidId v).1 = .error .notEnoughPrivileges ↔
      Bid.checkAuthor s0 u bid = .error .notEnoughPrivileges := by
  unfold Bid.Rollback Rollback.SwapBid
  rcases checkAuthor_cases s0 u bid uid hid with hca | hca
  · cases hrec : Storage.RecoverBid (Storage.SaveBid s0 bid) bidId v with
    | ok b => simp [hu, hb, hca, hrec, Storage.InsertBid]
    | error e =>
      have he := recoverBid_error_eq _ _ _ _ hrec
      subst he
      simp [hu, hb, hca, hrec]
  · simp [hu, hb, hca]

/-- C5: for each of `Status`, `SetStatus`, `Edit`, `Rollback` on a bid:
when the bid's author type is `User`, the operation fails with
`NotEnoughPrivileges` exactly when the requester's resolved user id
differs from the author id; when the author type is `Organization`, the
operation fails with `NotEnoughPrivileges` exactly when the requester
fails the permission check against the author organization id — so it
passes authorization if and only if the respective condition holds. -/
theorem bid_authorization_branching
    (s0 : Store) (u : String) (bidId : Nat) (bid : Bid) (uid : Nat)
    (st : String) (patch : BidPatch) (v : Int)
    (hu : User.Validate s0 u = .ok ())
    (hb : Storage.BidById s0 bidId = .ok bid)
    (hid : User.UserId s0 u = .ok uid) :
    (bid.authorType = "User" →
      ((Bid.Status s0 u bidId).1 = .error .notEnoughPrivileges ↔ uid ≠ bid.authorId) ∧
      ((Bid.SetStatus s0 u bidId st).1 = .error .notEnoughPrivileges ↔ uid ≠ bid.authorId) ∧
      ((Bid.Edit s0 u bidId patch).1 = .error .notEnoughPrivileges ↔ uid ≠ bid.authorId) ∧
      ((Bid.Rollback s0 u bidId v).1 = .error .notEnoughPrivileges ↔ uid ≠ bid.authorId)) ∧
    (bid.authorType = "Organization" →
      ((Bid.Status s0 u bidId).1 = .error .notEnoughPrivileges ↔
        Storage.VerifyUserPermission s0 u bid.authorId = false) ∧
      ((Bid.SetStatus s0 u bidId st).1 = .error .notEnoughPrivileges ↔
        Storage.VerifyUserPermission s0 u bid.authorId = false) ∧
      ((Bid.Edit s0 u bidId patch).1 = .error .notEnoughPrivileges ↔
        Storage.VerifyUserPermission s0 u bid.authorId = false) ∧
      ((Bid.Rollback s0 u bidId v).1 = .error .notEnoughPrivileges ↔
        Storage.VerifyUserPermission s0 u bid.authorId = false)) := by
  have hS := bidStatus_nep_iff s0 u bidId bid uid hu hb hid
  have hSS := bidSetStatus_nep_iff s0 u bidId st bid uid hu hb hid
  have hE := bidEdit_nep_iff s0 u bidId patch bid uid hu hb hid
  have hR := bidRollback_nep_iff s0 u bidId v bid uid hu hb hid
  constructor
  · intro hA
    have hiff := checkAuthor_user_nep_iff s0 u bid uid hA hid
    exact ⟨hS.trans hiff, hSS.trans hiff, hE.trans hiff, hR.trans hiff⟩
  · intro hA
    have hiff := checkAuthor_org_nep_iff s0 u bid hA
    exact ⟨hS.trans hiff, hSS.trans hiff, hE.trans hiff, hR.trans hiff⟩

/-- Witness for C5: the user-authored bid 20 (author: user 2 = bob)
requested by bob (resolved id 2), and the organization-authored bid 21
(author: organization 1) requested by alice — in both cases the
hypotheses hold at these concrete inputs. -/
theorem bid_authorization_branching_witness :
    ((demoB1.authorType = "User" →
      ((Bid.Status demo "bob" 20).1 = .error .notEnoughPrivileges ↔ 2 ≠ demoB1.authorId) ∧
      ((Bid.SetStatus demo "bob" 20 "Canceled").1 = .error .notEnoughPrivileges ↔ 2 ≠ demoB1.authorId) ∧
      ((Bid.Edit demo "bob" 20 ⟨none, none⟩).1 = .error .notEnoughPrivileges ↔ 2 ≠ demoB1.authorId) ∧
      ((Bid.Rollback demo "bob" 20 1).1 = .error .notEnoughPrivileges ↔ 2 ≠ demoB1.authorId)) ∧
     (demoB1.authorType = "Organization" →
      ((Bid.Status demo "bob" 20).1 = .error .notEnoughPrivileges ↔
        Storage.VerifyUserPermission demo "bob" demoB1.authorId = false) ∧
      ((Bid.SetStatus demo "bob" 20 "Canceled").1 = .error .notEnoughPrivileges ↔
        Storage.VerifyUserPermission demo "bob" demoB1.authorId = false) ∧
      ((Bid.Edit demo "bob" 20 ⟨none, none⟩).1 = .error .notEnoughPrivileges ↔
        Storage.VerifyUserPermission demo "bob" demoB1.authorId = false) ∧
      ((Bid.Rollback demo "bob" 20 1).1 = .error .notEnoughPrivileges ↔
        Storage.VerifyUserPermission demo "bob" demoB1.authorId = false))) ∧
    ((demoB2.authorType = "User" →
      ((Bid.Status demo "alice" 21).1 = .error .notEnoughPrivileges ↔ 1 ≠ demoB2.authorId) ∧
      ((Bid.SetStatus demo "alice" 21 "Canceled").1 = .error .notEnoughPrivileges ↔ 1 ≠ demoB2.authorId) ∧
      ((Bid.Edit demo "alice" 21 ⟨none, none⟩).1 = .error .notEnoughPrivileges ↔ 1 ≠ demoB2.authorId) ∧
      ((Bid.Rollback demo "alice" 21 1).1 = .error .notEnoughPrivileges ↔ 1 ≠ demoB2.authorId)) ∧
     (demoB2.authorType = "Organization" →
      ((Bid.Status demo "alice" 21).1 = .error .notEnoughPrivileges ↔
        Storage.VerifyUserPermission demo "alice" demoB2.authorId = false) ∧
      ((Bid.SetStatus demo "alice" 21 "Canceled").1 = .error .notEnoughPrivileges ↔
        Storage.VerifyUserPermission demo "alice" demoB2.authorId = false) ∧
      ((Bid.Edit demo "alice" 21 ⟨none, none⟩).1 = .error .notEnoughPrivileges ↔
        Storage.VerifyUserPermission demo "alice" demoB2.authorId = false) ∧
      ((Bid.Rollback demo "alice" 21 1).1 = .error .notEnoughPrivileges ↔
        Storage.VerifyUserPermission demo "alice" demoB2.authorId = false))) :=
  ⟨bid_authorization_branching demo "bob" 20 demoB1 2 "Canceled" ⟨none, none⟩ 1
      rfl rfl rfl,
   bid_authorization_branching demo "alice" 21 demoB2 1 "Canceled" ⟨none, none⟩ 1
      rfl rfl rfl⟩

/-- C6: `SubmitDecision` authorizes the requester with the permission
gate against the owning organization of the *bid's tender* — the bid's
author type and author id play no role in the check (the universally
quantified `bid` here has any author type): a requester who is not a
representative of the tender's owning organization fails with
`NotEnoughPrivileges`, and one who is never receives that error. -/
theorem submitDecision_authorizes_tender_owner
    (s0 : Store) (u : String) (bidId : Nat) (dec : String)
    (bid : Bid) (tender : Tender)
    (hu : User.Validate s0 u = .ok ())
    (hb : Storage.BidById s0 bidId = .ok bid)
    (ht : Tender.fetch s0 bid.tenderId = .ok tender) :
    (Storage.VerifyUserPermission s0 u tender.orgId = false →
      Bid.SubmitDecision s0 u bidId dec = (.error .notEnoughPrivileges, s0)) ∧
    (Storage.VerifyUserPermission s0 u tender.orgId = true →
      (Bid.SubmitDecision s0 u bidId dec).1 ≠ .error .notEnoughPrivileges) := by
  constructor
  · intro hperm
    unfold Bid.SubmitDecision User.Permission
    simp [hu, hb, ht, hperm]
  · intro hperm
    obtain ⟨uid, hid⟩ := userId_of_validate s0 u hu
    unfold Bid.SubmitDecision User.Permission
    simp only [hu, hb, ht, hperm, hid, orgSize_eval, if_true]
    split
    · exact fun h => Except.noConfusion h
    · exact fun h => Except.noConfusion h

/-- Witness for C6: alice (a representative of organization 1, the owner
of bid 20's tender) is allowed; dave (representative of organization 3
only) is rejected with `NotEnoughPrivileges` — on the same user-authored
bid whose author is neither of them. -/
theorem submitDecision_authorizes_tender_owner_witness :
    ((Storage.VerifyUserPermission demo "dave" demoT1.orgId = false →
       Bid.SubmitDecision demo "dave" 20 "Approved" = (.error .notEnoughPrivileges, demo)) ∧
     (Storage.VerifyUserPermission demo "dave" demoT1.orgId = true →
       (Bid.SubmitDecision demo "dave" 20 "Approved").1 ≠ .error .notEnoughPrivileges)) ∧
    ((Storage.VerifyUserPermission demo "alice" demoT1.orgId = false →
       Bid.SubmitDecision demo "alice" 20 "Approved" = (.error .notEnoughPrivileges, demo)) ∧
     (Storage.VerifyUserPermission demo "alice" demoT1.orgId = true →
       (Bid.SubmitDecision demo "alice" 20 "Approved").1 ≠ .error .notEnoughPrivileges)) :=
  ⟨submitDecision_authorizes_tender_owner demo "dave" 20 "Approved" demoB1 demoT1
      rfl rfl rfl,
   submitDecision_authorizes_tender_owner demo "alice" 20 "Approved" demoB1 demoT1
      rfl rfl rfl⟩

/-- C1: the decision resolver of `SubmitDecision`.  First conjunct: the
code's left-to-right scan with short-circuit on `Rejected` computes, on
every decision list and threshold, exactly the outcome the claim
describes (`specOutcome`).  Second conjunct: a `SubmitDecision` call that
reaches the resolver first upserts the requester's vote, fetches all
decisions recorded for the bid, computes
`requiredApproves = min(orgSize, 3)` over the tender owner's
representative count, and resolves: on a conclusive outcome the bid's
status is set to `Canceled` and persisted, on an inconclusive one the bid
is returned unmodified. -/
theorem submitDecision_quorum_resolution
    (s0 : Store) (username : String) (bidId : Nat) (dec : String)
    (bid : Bid) (tender : Tender) (uid : Nat)
    (hu : User.Validate s0 username = .ok ())
    (hb : Storage.BidById s0 bidId = .ok bid)
    (ht : Tender.fetch s0 bid.tenderId = .ok tender)
    (hp : User.Permission s0 username tender.orgId = .ok ())
    (hid : User.UserId s0 username = .ok uid) :
    (∀ (ds : List Decision) (req : Int), decisionSummary ds req = specOutcome ds req) ∧
    (Bid.SubmitDecision s0 username bidId dec =
      (let s1 := Storage.InsertDecision s0 { userId := uid, bidId := bid.id, decision := dec }
       let ds := Storage.Decisions s1 bidId
       let requiredApproves := min ((orgRepCount s1 tender.orgId : Nat) : Int) QUORUM_SIZE
       if specOutcome ds requiredApproves = "null" then (.ok bid.ToOut, s0)
       else (.ok (Bid.ToOut { bid with status := "Canceled" }),
             Storage.UpdateBid s1 { bid with status := "Canceled" }))) := by
  refine ⟨decisionSummary_eq_specOutcome, ?_⟩
  unfold Bid.SubmitDecision
  simp only [hu, hb, ht, hp, hid, orgSize_eval, decisionSummary_eq_specOutcome]

/-- Witness for C1: alice's `Approved` vote on bid 20 (tender owned by
organization 1 with 3 representatives). -/
theorem submitDecision_quorum_resolution_witness :
    (∀ (ds : List Decision) (req : Int), decisionSummary ds req = specOutcome ds req) ∧
    (Bid.SubmitDecision demo "alice" 20 "Approved" =
      (let s1 := Storage.InsertDecision demo { userId := 1, bidId := demoB1.id, decision := "Approved" }
       let ds := Storage.Decisions s1 20
       let requiredApproves := min ((orgRepCount s1 demoT1.orgId : Nat) : Int) QUORUM_SIZE
       if specOutcome ds requiredApproves = "null" then (.ok demoB1.ToOut, demo)
       else (.ok (Bid.ToOut { demoB1 with status := "Canceled" }),
             Storage.UpdateBid s1 { demoB1 with status := "Canceled" }))) :=
  submitDecision_quorum_resolution demo "alice" 20 "Approved" demoB1 demoT1 1
    rfl rfl rfl rfl rfl
